import Mathlib

/-!
Verification of the Maxine VM native bootstrap loader
(`src/Native/substrate/maxine.c`) against its specification.

The C file is shallowly embedded: machine addresses and sizes are `Nat`
(with explicit `% 2^64` where overflow matters), memory regions are maps
`Nat → Nat` (address to byte value), and the external collaborators the
loader calls (environment query, `realpath`/`readlink`, `image_load`,
`alloca`, `malloc`, the managed entry function, `close`, `dladdr`) are
supplied as an oracle record, since they are outside this translation
unit.  Fatal terminations (`exit`, `log_exit`) become an explicit
outcome constructor carrying the exit code.
-/

/-- `IMAGE_FILE_NAME` constant from maxine.c line 46, as a byte list. -/
def IMAGE_FILE_NAME : List Nat := "maxine.vm".toList.map Char.toNat

/-- `REFERENCE_BUFFER_SIZE` (maxine.c lines 55-59): the diagnostic
reservation added to the auxiliary space.  `ENABLE_CARD_TABLE_VERIFICATION`
is 0 in the source (line 48), so the reservation is 0 bytes. -/
def REFERENCE_BUFFER_SIZE : Nat := 0

/-- Machine word size in bytes (`sizeof(Address)` on the 64-bit targets). -/
def wordSize : Nat := 8

/-- Modelled from the spec: `wordAlign` (defined in a header outside the
substrate directory) aligns an address up to the next machine-word
boundary ("Align the base address up to the next machine-word boundary"). -/
def wordAlign (a : Nat) : Nat := ((a + wordSize - 1) / wordSize) * wordSize

/-- Address arithmetic is on 64-bit unsigned machine words. -/
def ADDRESS_MOD : Nat := 2 ^ 64

/-- Entry point computation, maxine.c line 202:
`method = (VMRunMethod) (image_heap() + (Address) image_header()->vmRunMethodOffset)`. -/
def entryAddress (heap off : Nat) : Nat := (heap + off) % ADDRESS_MOD

/-- The three numeric header fields maxine.c reads from the image header
record (`image_header()`). -/
structure ImageHeader where
  vmRunMethodOffset : Nat
  vmThreadLocalsSize : Nat
  auxiliarySpaceSize : Nat
deriving Repr, DecidableEq

/-- What a successful `image_load` (external collaborator) leaves behind:
the image file descriptor, the boot heap base (`image_heap()`), and the
header record (`image_header()`). -/
structure ImageInfo where
  fd : Int
  heap : Nat
  header : ImageHeader

/-- Oracle for everything maxine.c gets from outside this translation
unit: environment, path resolution, the image loader, the allocators,
the managed entry function and `close`. -/
structure OS where
  /-- `getenv("DYLD_FORCE_FLAT_NAMESPACE") != NULL` (line 173, Darwin). -/
  dyldForceFlatNamespace : Bool
  /-- whether `realpath`/`readlink` succeeded inside `getExecutablePath`
  (lines 67 and 85-88). -/
  executablePathOk : Bool
  /-- result of `image_load` (line 115); `none` means the external loader
  found the image unreadable/invalid and terminated fatally. -/
  image : Option ImageInfo
  /-- the exit code the external `image_load` uses on failure. -/
  imageLoadFailCode : Nat
  /-- address returned by `alloca` for the primordial thread locals (line 205). -/
  allocaBase : Nat
  /-- stack memory contents before the `memset` on line 211. -/
  stackMem : Nat → Nat
  /-- address returned by `malloc` for the auxiliary space (line 220);
  0 means allocation failure. -/
  mallocAddr : Nat
  /-- heap memory contents before the `memset` on line 227. -/
  heapMem : Nat → Nat
  /-- value returned by the managed entry function call (line 234). -/
  entryResult : Int
  /-- value returned by `close(fd)` (line 241); nonzero means failure. -/
  closeResult : Int

/-- The arguments and memory state at the moment of the entry call
(line 234). -/
structure EntryCall where
  primordialVmThreadLocals : Nat
  stackMem : Nat → Nat
  bootHeapRegionStart : Nat
  auxiliarySpace : Nat
  auxMem : Nat → Nat
  /-- whether the `malloc` on line 220 was executed. -/
  auxAllocated : Bool
  /-- `auxiliarySpaceSize` local of maxine.c line 218 in the branch taken. -/
  auxTotalSize : Nat
  methodAddress : Nat

/-- Outcome of the bootstrap routine `maxine`: a fatal `exit`/`log_exit`
with a code, or completion (entry call performed, its return value
becomes the routine's return value), recording whether the image file
descriptor was closed and whether the close-failure warning was logged. -/
inductive BootOutcome where
  | fatalExit (code : Nat)
  | completed (call : EntryCall) (exitCode : Int) (closedFd : Bool) (warnedClose : Bool)

/-- Shallow embedding of `int maxine(int argc, char *argv[], char *executablePath)`
(maxine.c lines 166-252), over the oracle `os`.  The Darwin-only
environment check (lines 171-178) and the shared fatal paths are kept;
logging besides the close warning is elided (it does not affect state). -/
def maxine (os : OS) : BootOutcome :=
  if os.dyldForceFlatNamespace = false then .fatalExit 11
  else if os.executablePathOk = false then .fatalExit 1
  else
    match os.image with
    | none => .fatalExit os.imageLoadFailCode
    | some info =>
      let methodAddr := entryAddress info.heap info.header.vmRunMethodOffset
      let primordial := wordAlign os.allocaBase
      let zeroedStack : Nat → Nat := fun a =>
        if primordial ≤ a ∧ a < primordial + info.header.vmThreadLocalsSize then 0
        else os.stackMem a
      let auxTotal := info.header.auxiliarySpaceSize + REFERENCE_BUFFER_SIZE
      let closedFd := decide (0 < info.fd)
      let warned := closedFd && decide (os.closeResult ≠ 0)
      if auxTotal = 0 then
        .completed
          ⟨primordial, zeroedStack, info.heap, 0, os.heapMem, false, 0, methodAddr⟩
          os.entryResult closedFd warned
      else if os.mallocAddr = 0 then .fatalExit 1
      else
        let auxMem : Nat → Nat := fun a =>
          if os.mallocAddr ≤ a ∧ a < os.mallocAddr + auxTotal then 1
          else os.heapMem a
        .completed
          ⟨primordial, zeroedStack, info.heap, os.mallocAddr, auxMem, true, auxTotal, methodAddr⟩
          os.entryResult closedFd warned

/-! ## Path resolver (maxine.c lines 65-110) -/

/-- ASCII code of the path separator character checked on line 95. -/
def slashByte : Nat := 47

/-- Store byte `v` at index `i` of buffer `buf`. -/
def writeByte (buf : Nat → Nat) (i v : Nat) : Nat → Nat :=
  fun a => if a = i then v else buf a

/-- The backward scan of `getExecutablePath` (maxine.c lines 94-99):
`for (p = result + numberOfChars; p >= result; p--) if (*p == slash) p[1] = 0; break;`
Called with the start index `numberOfChars`; on the first separator found
(scanning downward) the following byte is set to 0 and the scan stops. -/
def chopFrom (buf : Nat → Nat) : Nat → (Nat → Nat)
  | 0 => if buf 0 = slashByte then writeByte buf 1 0 else buf
  | i + 1 => if buf (i + 1) = slashByte then writeByte buf (i + 2) 0 else chopFrom buf i

/-- The buffer indices the scan of `chopFrom` reads (`*p`), in order. -/
def chopReads (buf : Nat → Nat) : Nat → List Nat
  | 0 => [0]
  | i + 1 => if buf (i + 1) = slashByte then [i + 1] else (i + 1) :: chopReads buf i

/-- The buffer indices the scan of `chopFrom` writes (`p[1] = 0`). -/
def chopWrites (buf : Nat → Nat) : Nat → List Nat
  | 0 => if buf 0 = slashByte then [1] else []
  | i + 1 => if buf (i + 1) = slashByte then [i + 2] else chopWrites buf i

/-- Read a NUL-terminated C string from `buf` starting at index `i`, with
explicit fuel (the C code relies on a terminator being present). -/
def readCString (buf : Nat → Nat) : Nat → Nat → List Nat
  | 0, _ => []
  | fuel + 1, i => if buf i = 0 then [] else buf i :: readCString buf fuel (i + 1)

/-- `getImageFilePath` (maxine.c lines 103-110): chop the executable name
off the resolved path (`getExecutablePath`), then append `IMAGE_FILE_NAME`
at the end of the directory string (`strcpy(result + strlen(result), ...)`).
`n` is `numberOfChars` from the path resolution; `fuel` bounds the
`strlen` walk. -/
def getImageFilePathBytes (buf : Nat → Nat) (n fuel : Nat) : List Nat :=
  readCString (chopFrom buf n) fuel 0 ++ IMAGE_FILE_NAME

/-- A byte buffer holding the bytes of `l` followed by zeros (the form
`realpath` leaves the result buffer in: a NUL-terminated string). -/
def bufOfList (l : List Nat) : Nat → Nat :=
  fun i => (l.get? i).getD 0

/-- Byte list of a string literal. -/
def strBytes (s : String) : List Nat := s.toList.map Char.toNat

/-! ## Fault diagnostics (maxine.c lines 268-283) -/

/-- The fields of `Dl_info` that `native_trap_exit` reads after a
successful `dladdr`. -/
structure DlInfo where
  dli_fname : String
  dli_fbase : Nat
  dli_sname : Option String
  dli_saddr : Nat

/-- The log lines `native_trap_exit` can emit. -/
inductive TrapLogLine where
  | inModule (fname : String) (fbase : Nat)
  | inModuleAt (fname : String) (fbase : Nat) (sname : String) (saddr : Nat) (offset : Int)
  | trapMessage (address : Nat)
deriving DecidableEq

/-- Result of `native_trap_exit`: what it logs and the exit code it
terminates the process with (via `log_exit`, modelled from the spec:
`log_exit` is defined outside the substrate file and prints then exits
with the given code). -/
structure TrapOutcome where
  lines : List TrapLogLine
  exitCode : Int

/-- Shallow embedding of `native_trap_exit(int code, Address address)`
(maxine.c lines 268-283).  `dladdrResult` is the outcome of the external
`dladdr(address, &info)` call: `none` when no loaded module owns the
address (return 0), `some info` otherwise. -/
def native_trap_exit (dladdrResult : Option DlInfo) (code : Int) (address : Nat) : TrapOutcome :=
  let diag : List TrapLogLine :=
    match dladdrResult with
    | none => []
    | some info =>
      match info.dli_sname with
      | none => [.inModule info.dli_fname info.dli_fbase]
      | some sname =>
        [.inModuleAt info.dli_fname info.dli_fbase sname info.dli_saddr
          ((address : Int) - (info.dli_saddr : Int))]
  ⟨diag ++ [.trapMessage address], code⟩

/-! ## Concrete oracle instances used by witnesses and counterexamples -/

/-- A sample image header with a nonzero auxiliary space size. -/
def sampleHeader : ImageHeader := ⟨16, 24, 32⟩

/-- A sample successful image load with a positive file descriptor. -/
def sampleInfo : ImageInfo := ⟨3, 4096, sampleHeader⟩

/-- A sample oracle for a fully successful run: entry function returns -5,
`close` fails (returns 2). -/
def sampleOS : OS :=
  ⟨true, true, some sampleInfo, 1, 100, fun _ => 9, 5000, fun _ => 9, -5, 2⟩

/-- Oracle where `DYLD_FORCE_FLAT_NAMESPACE` is missing. -/
def envMissingOS : OS :=
  ⟨false, true, none, 1, 0, fun _ => 0, 0, fun _ => 0, 0, 0⟩

/-- Oracle where the self-path resolution fails. -/
def pathFailOS : OS :=
  ⟨true, false, none, 1, 0, fun _ => 0, 0, fun _ => 0, 0, 0⟩

/-- Oracle where the auxiliary-space `malloc` fails (returns 0). -/
def auxFailOS : OS :=
  ⟨true, true, some sampleInfo, 1, 100, fun _ => 9, 0, fun _ => 9, 0, 0⟩

/-- Header whose `vmThreadLocalsSize` (7) is not a word multiple. -/
def c2Header : ImageHeader := ⟨16, 7, 0⟩

/-- Oracle for the C2 counterexample: uninitialized stack bytes are 7. -/
def c2OS : OS :=
  ⟨true, true, some ⟨3, 4096, c2Header⟩, 1, 0, fun _ => 7, 0, fun _ => 9, 0, 0⟩

/-- A sample image load whose file descriptor is 0. -/
def zeroFdInfo : ImageInfo := ⟨0, 4096, sampleHeader⟩

/-- Oracle for a run whose image file descriptor is 0 and whose `close`
would fail if it were called. -/
def zeroFdOS : OS :=
  ⟨true, true, some zeroFdInfo, 1, 100, fun _ => 9, 5000, fun _ => 9, 7, 2⟩

/-! ## Claims -/

/-- C1 (amended): the missing-environment-variable check terminates with
exit code 11, which differs from the others, but the unreadable-self-path
and auxiliary-allocation-failure conditions both terminate with exit
code 1 — the fatal codes are not pairwise distinct. -/
theorem c1_exit_codes_amended :
    (∀ os : OS, os.dyldForceFlatNamespace = false → maxine os = .fatalExit 11) ∧
    (∀ os : OS, os.dyldForceFlatNamespace = true → os.executablePathOk = false →
      maxine os = .fatalExit 1) ∧
    (∀ (os : OS) (info : ImageInfo), os.dyldForceFlatNamespace = true →
      os.executablePathOk = true → os.image = some info →
      info.header.auxiliarySpaceSize + REFERENCE_BUFFER_SIZE ≠ 0 → os.mallocAddr = 0 →
      maxine os = .fatalExit 1) ∧
    (11 : Nat) ≠ 1 := by
  refine ⟨?_, ?_, ?_, by decide⟩
  · intro os h
    simp [maxine, h]
  · intro os h1 h2
    simp [maxine, h1, h2]
  · intro os info h1 h2 h3 h4 h5
    simp [maxine, h1, h2, h3, h4, h5]

/-- C1 witness: the three fatal conditions evaluated on concrete oracles. -/
theorem c1_exit_codes_witness :
    maxine envMissingOS = .fatalExit 11 ∧
    maxine pathFailOS = .fatalExit 1 ∧
    maxine auxFailOS = .fatalExit 1 :=
  ⟨c1_exit_codes_amended.1 envMissingOS rfl,
   c1_exit_codes_amended.2.1 pathFailOS rfl rfl,
   c1_exit_codes_amended.2.2.1 auxFailOS sampleInfo rfl rfl rfl (by decide) rfl⟩

/-- C1 counterexample: two different fatal bootstrap conditions
(unreadable self-path; auxiliary-space allocation failure) terminate with
the SAME exit code, so the codes are not pairwise distinct as claimed. -/
theorem c1_distinct_codes_counterexample :
    ∃ c : Nat, maxine pathFailOS = .fatalExit c ∧ maxine auxFailOS = .fatalExit c :=
  ⟨1, rfl, rfl⟩

theorem wordAlign_is_aligned (a : Nat) : wordAlign a % wordSize = 0 := by
  simp [wordAlign, wordSize]

theorem wordAlign_le_slack (a : Nat) : a ≤ wordAlign a ∧ wordAlign a ≤ a + wordSize - 1 := by
  simp only [wordAlign, wordSize]
  omega

/-- C2 (amended): the primordial context region passed to the entry call
is word-aligned, fits inside the `vmThreadLocalsSize + sizeof(Address)`
bytes obtained from `alloca`, and exactly `vmThreadLocalsSize` bytes of
it (not rounded up) are zero at the moment of the entry call. -/
theorem c2_primordial_zeroed_amended (os : OS) (info : ImageInfo)
    (hdyld : os.dyldForceFlatNamespace = true) (hpath : os.executablePathOk = true)
    (himg : os.image = some info)
    (hok : info.header.auxiliarySpaceSize + REFERENCE_BUFFER_SIZE = 0 ∨ os.mallocAddr ≠ 0) :
    ∃ c ec cf w, maxine os = .completed c ec cf w ∧
      c.primordialVmThreadLocals % wordSize = 0 ∧
      os.allocaBase ≤ c.primordialVmThreadLocals ∧
      c.primordialVmThreadLocals + info.header.vmThreadLocalsSize ≤
        os.allocaBase + info.header.vmThreadLocalsSize + wordSize ∧
      (∀ i < info.header.vmThreadLocalsSize,
        c.stackMem (c.primordialVmThreadLocals + i) = 0) := by
  have hz : ∀ i < info.header.vmThreadLocalsSize,
      (if wordAlign os.allocaBase ≤ wordAlign os.allocaBase + i ∧
          wordAlign os.allocaBase + i <
            wordAlign os.allocaBase + info.header.vmThreadLocalsSize then 0
        else os.stackMem (wordAlign os.allocaBase + i)) = 0 := by
    intro i hi
    rw [if_pos ⟨Nat.le_add_right _ _, by omega⟩]
  have halign := wordAlign_is_aligned os.allocaBase
  have hslack := wordAlign_le_slack os.allocaBase
  have hbound : wordAlign os.allocaBase + info.header.vmThreadLocalsSize ≤
      os.allocaBase + info.header.vmThreadLocalsSize + wordSize := by
    have hw : 0 < wordSize := by decide
    omega
  rcases Nat.eq_zero_or_pos (info.header.auxiliarySpaceSize + REFERENCE_BUFFER_SIZE)
    with hzero | hpos
  · refine ⟨⟨wordAlign os.allocaBase,
        fun a => if wordAlign os.allocaBase ≤ a ∧
            a < wordAlign os.allocaBase + info.header.vmThreadLocalsSize then 0
          else os.stackMem a,
        info.heap, 0, os.heapMem, false, 0,
        entryAddress info.heap info.header.vmRunMethodOffset⟩,
      os.entryResult, decide (0 < info.fd),
      decide (0 < info.fd) && decide (os.closeResult ≠ 0),
      ?_, halign, hslack.1, hbound, hz⟩
    simp [maxine, hdyld, hpath, himg, hzero]
  · have hmalloc : os.mallocAddr ≠ 0 := by
      rcases hok with h | h
      · omega
      · exact h
    refine ⟨⟨wordAlign os.allocaBase,
        fun a => if wordAlign os.allocaBase ≤ a ∧
            a < wordAlign os.allocaBase + info.header.vmThreadLocalsSize then 0
          else os.stackMem a,
        info.heap, os.mallocAddr,
        fun a => if os.mallocAddr ≤ a ∧
            a < os.mallocAddr +
              (info.header.auxiliarySpaceSize + REFERENCE_BUFFER_SIZE) then 1
          else os.heapMem a,
        true, info.header.auxiliarySpaceSize + REFERENCE_BUFFER_SIZE,
        entryAddress info.heap info.header.vmRunMethodOffset⟩,
      os.entryResult, decide (0 < info.fd),
      decide (0 < info.fd) && decide (os.closeResult ≠ 0),
      ?_, halign, hslack.1, hbound, hz⟩
    simp [maxine, hdyld, hpath, himg, Nat.pos_iff_ne_zero.mp hpos, hmalloc]

/-- C2 witness: a concrete successful run has an aligned, zeroed
primordial context. -/
theorem c2_primordial_zeroed_witness :
    ∃ c ec cf w, maxine sampleOS = .completed c ec cf w ∧
      c.primordialVmThreadLocals % wordSize = 0 ∧
      sampleOS.allocaBase ≤ c.primordialVmThreadLocals ∧
      c.primordialVmThreadLocals + sampleInfo.header.vmThreadLocalsSize ≤
        sampleOS.allocaBase + sampleInfo.header.vmThreadLocalsSize + wordSize ∧
      (∀ i < sampleInfo.header.vmThreadLocalsSize,
        c.stackMem (c.primordialVmThreadLocals + i) = 0) :=
  c2_primordial_zeroed_amended sampleOS sampleInfo rfl rfl rfl (Or.inr (by decide))

/-- C2 counterexample: with `vmThreadLocalsSize = 7`, the word-rounded
size is 8, and the byte at offset 7 — inside the region of that rounded
size — is NOT zero at the entry call (only 7 bytes are zeroed): the
context size is not `vmThreadLocalsSize` rounded up to a word boundary. -/
theorem c2_rounded_size_counterexample :
    ∃ c ec cf w, maxine c2OS = .completed c ec cf w ∧
      wordAlign c2Header.vmThreadLocalsSize = 8 ∧
      7 < wordAlign c2Header.vmThreadLocalsSize ∧
      c.stackMem (c.primordialVmThreadLocals + 7) ≠ 0 := by
  refine ⟨_, _, _, _, rfl, by decide, by decide, by decide⟩

/-- C3: with `auxiliarySpaceSize > 0`, the auxiliary region passed to the
entry call has length `auxiliarySpaceSize + REFERENCE_BUFFER_SIZE`, and
every byte of it holds the poison value 1 (nonzero) before the entry
call. -/
theorem c3_auxiliary_poisoned (os : OS) (info : ImageInfo)
    (hdyld : os.dyldForceFlatNamespace = true) (hpath : os.executablePathOk = true)
    (himg : os.image = some info)
    (hpos : 0 < info.header.auxiliarySpaceSize) (hmalloc : os.mallocAddr ≠ 0) :
    ∃ c ec cf w, maxine os = .completed c ec cf w ∧
      c.auxAllocated = true ∧
      c.auxTotalSize = info.header.auxiliarySpaceSize + REFERENCE_BUFFER_SIZE ∧
      (∀ i < c.auxTotalSize, c.auxMem (c.auxiliarySpace + i) = 1) ∧
      (1 : Nat) ≠ 0 := by
  have hzero : info.header.auxiliarySpaceSize + REFERENCE_BUFFER_SIZE ≠ 0 := by
    simp [REFERENCE_BUFFER_SIZE]
    omega
  refine ⟨⟨wordAlign os.allocaBase,
      fun a => if wordAlign os.allocaBase ≤ a ∧
          a < wordAlign os.allocaBase + info.header.vmThreadLocalsSize then 0
        else os.stackMem a,
      info.heap, os.mallocAddr,
      fun a => if os.mallocAddr ≤ a ∧
          a < os.mallocAddr +
            (info.header.auxiliarySpaceSize + REFERENCE_BUFFER_SIZE) then 1
        else os.heapMem a,
      true, info.header.auxiliarySpaceSize + REFERENCE_BUFFER_SIZE,
      entryAddress info.heap info.header.vmRunMethodOffset⟩,
    os.entryResult, decide (0 < info.fd),
    decide (0 < info.fd) && decide (os.closeResult ≠ 0),
    ?_, rfl, rfl, ?_, by decide⟩
  · simp [maxine, hdyld, hpath, himg, hzero, hmalloc]
  · dsimp only
    intro i hi
    exact if_pos ⟨Nat.le_add_right _ _, by omega⟩

/-- C3 witness: on a concrete run with `auxiliarySpaceSize = 32` the
auxiliary region is fully poisoned. -/
theorem c3_auxiliary_poisoned_witness :
    ∃ c ec cf w, maxine sampleOS = .completed c ec cf w ∧
      c.auxAllocated = true ∧
      c.auxTotalSize = sampleInfo.header.auxiliarySpaceSize + REFERENCE_BUFFER_SIZE ∧
      (∀ i < c.auxTotalSize, c.auxMem (c.auxiliarySpace + i) = 1) ∧
      (1 : Nat) ≠ 0 :=
  c3_auxiliary_poisoned sampleOS sampleInfo rfl rfl rfl (by decide) (by decide)

/-- C4: with `auxiliarySpaceSize = 0` and no diagnostic reservation
configured (`REFERENCE_BUFFER_SIZE = 0`), no auxiliary allocation is
performed, the auxiliary address passed to the entry call is 0, and the
run still reaches the entry call (a completed outcome, not a fatal
exit). -/
theorem c4_no_aux_allocation (os : OS) (info : ImageInfo)
    (hdyld : os.dyldForceFlatNamespace = true) (hpath : os.executablePathOk = true)
    (himg : os.image = some info)
    (hzero : info.header.auxiliarySpaceSize = 0) :
    REFERENCE_BUFFER_SIZE = 0 ∧
    ∃ c ec cf w, maxine os = .completed c ec cf w ∧
      c.auxiliarySpace = 0 ∧ c.auxAllocated = false := by
  refine ⟨rfl, ⟨wordAlign os.allocaBase,
      fun a => if wordAlign os.allocaBase ≤ a ∧
          a < wordAlign os.allocaBase + info.header.vmThreadLocalsSize then 0
        else os.stackMem a,
      info.heap, 0, os.heapMem, false, 0,
      entryAddress info.heap info.header.vmRunMethodOffset⟩,
    os.entryResult, decide (0 < info.fd),
    decide (0 < info.fd) && decide (os.closeResult ≠ 0),
    ?_, rfl, rfl⟩
  simp [maxine, hdyld, hpath, himg, hzero, REFERENCE_BUFFER_SIZE]

/-- C4 witness: a concrete run with a zero auxiliary size reaches the
entry call with auxiliary address 0 and no allocation. -/
theorem c4_no_aux_allocation_witness :
    REFERENCE_BUFFER_SIZE = 0 ∧
    ∃ c ec cf w, maxine c2OS = .completed c ec cf w ∧
      c.auxiliarySpace = 0 ∧ c.auxAllocated = false :=
  c4_no_aux_allocation c2OS ⟨3, 4096, c2Header⟩ rfl rfl rfl rfl

/-- Helper: on any run where the environment check, path resolution,
image load and (if needed) the auxiliary allocation succeed, `maxine`
completes: the entry call happens, its return value is returned as the
exit code, the descriptor-close flag is `0 < fd`, the close warning is
logged iff the file was closed and `close` failed, and the entry address
is `entryAddress heap vmRunMethodOffset`. -/
theorem maxine_completes (os : OS) (info : ImageInfo)
    (hdyld : os.dyldForceFlatNamespace = true) (hpath : os.executablePathOk = true)
    (himg : os.image = some info)
    (hok : info.header.auxiliarySpaceSize + REFERENCE_BUFFER_SIZE = 0 ∨ os.mallocAddr ≠ 0) :
    ∃ c, maxine os = .completed c os.entryResult (decide (0 < info.fd))
        (decide (0 < info.fd) && decide (os.closeResult ≠ 0)) ∧
      c.methodAddress = entryAddress info.heap info.header.vmRunMethodOffset := by
  rcases Nat.eq_zero_or_pos (info.header.auxiliarySpaceSize + REFERENCE_BUFFER_SIZE)
    with hzero | hpos
  · refine ⟨⟨wordAlign os.allocaBase,
        fun a => if wordAlign os.allocaBase ≤ a ∧
            a < wordAlign os.allocaBase + info.header.vmThreadLocalsSize then 0
          else os.stackMem a,
        info.heap, 0, os.heapMem, false, 0,
        entryAddress info.heap info.header.vmRunMethodOffset⟩, ?_, rfl⟩
    simp [maxine, hdyld, hpath, himg, hzero]
  · have hmalloc : os.mallocAddr ≠ 0 := by
      rcases hok with h | h
      · omega
      · exact h
    refine ⟨⟨wordAlign os.allocaBase,
        fun a => if wordAlign os.allocaBase ≤ a ∧
            a < wordAlign os.allocaBase + info.header.vmThreadLocalsSize then 0
          else os.stackMem a,
        info.heap, os.mallocAddr,
        fun a => if os.mallocAddr ≤ a ∧
            a < os.mallocAddr +
              (info.header.auxiliarySpaceSize + REFERENCE_BUFFER_SIZE) then 1
          else os.heapMem a,
        true, info.header.auxiliarySpaceSize + REFERENCE_BUFFER_SIZE,
        entryAddress info.heap info.header.vmRunMethodOffset⟩, ?_, rfl⟩
    simp [maxine, hdyld, hpath, himg, Nat.pos_iff_ne_zero.mp hpos, hmalloc]

/-- C5: the entry address used for the call is exactly
`heapBaseAddress + vmRunMethodOffset` (64-bit address arithmetic), it is
the single `methodAddress` value recorded in the entry call, and
changing either operand by `d` changes the computed address by exactly
`d` (modulo the 64-bit address space). -/
theorem c5_entry_address (os : OS) (info : ImageInfo)
    (hdyld : os.dyldForceFlatNamespace = true) (hpath : os.executablePathOk = true)
    (himg : os.image = some info)
    (hok : info.header.auxiliarySpaceSize + REFERENCE_BUFFER_SIZE = 0 ∨ os.mallocAddr ≠ 0) :
    (∃ c ec cf w, maxine os = .completed c ec cf w ∧
      c.methodAddress = entryAddress info.heap info.header.vmRunMethodOffset) ∧
    (∀ h o d : Nat, entryAddress (h + d) o = (entryAddress h o + d) % ADDRESS_MOD) ∧
    (∀ h o d : Nat, entryAddress h (o + d) = (entryAddress h o + d) % ADDRESS_MOD) := by
  have hM : ADDRESS_MOD = 18446744073709551616 := by norm_num [ADDRESS_MOD]
  refine ⟨?_, ?_, ?_⟩
  · obtain ⟨c, hc, hm⟩ := maxine_completes os info hdyld hpath himg hok
    exact ⟨c, _, _, _, hc, hm⟩
  · intro h o d
    simp only [entryAddress, hM]
    omega
  · intro h o d
    simp only [entryAddress, hM]
    omega

/-- C5 witness: a concrete run records the entry address, and a concrete
delta shifts the address by exactly that delta. -/
theorem c5_entry_address_witness :
    (∃ c ec cf w, maxine sampleOS = .completed c ec cf w ∧
      c.methodAddress = entryAddress sampleInfo.heap sampleInfo.header.vmRunMethodOffset) ∧
    entryAddress (4096 + 10) 16 = (entryAddress 4096 16 + 10) % ADDRESS_MOD :=
  ⟨(c5_entry_address sampleOS sampleInfo rfl rfl rfl (Or.inr (by decide))).1,
   (c5_entry_address sampleOS sampleInfo rfl rfl rfl (Or.inr (by decide))).2.1 4096 16 10⟩

/-- C6: the bootstrap returns as its exit code exactly the value the
entry function returned (any integer, negative included); a failing
post-return close of the image descriptor only sets the warning flag and
never alters the returned exit code. -/
theorem c6_exit_code_passthrough (os : OS) (info : ImageInfo)
    (hdyld : os.dyldForceFlatNamespace = true) (hpath : os.executablePathOk = true)
    (himg : os.image = some info)
    (hok : info.header.auxiliarySpaceSize + REFERENCE_BUFFER_SIZE = 0 ∨ os.mallocAddr ≠ 0) :
    ∃ c, maxine os = .completed c os.entryResult (decide (0 < info.fd))
        (decide (0 < info.fd) && decide (os.closeResult ≠ 0)) ∧
      (0 < info.fd → os.closeResult ≠ 0 →
        maxine os = .completed c os.entryResult true true) := by
  obtain ⟨c, hc, hm⟩ := maxine_completes os info hdyld hpath himg hok
  refine ⟨c, hc, ?_⟩
  intro hfd hclose
  simpa [hfd, hclose] using hc

/-- C6 witness: a concrete run whose entry function returns -5 and whose
`close` fails exits with code -5 and the warning flag set. -/
theorem c6_exit_code_passthrough_witness :
    ∃ c, maxine sampleOS = .completed c (-5) true true := by
  obtain ⟨c, hc, hwarn⟩ :=
    c6_exit_code_passthrough sampleOS sampleInfo rfl rfl rfl (Or.inr (by decide))
  exact ⟨c, hwarn (by decide) (by decide)⟩

/-- C10: after the entry call returns, the image file descriptor is
closed iff it is strictly positive; a descriptor value of zero or below
is never closed and produces no warning. -/
theorem c10_close_only_positive_fd (os : OS) (info : ImageInfo)
    (hdyld : os.dyldForceFlatNamespace = true) (hpath : os.executablePathOk = true)
    (himg : os.image = some info)
    (hok : info.header.auxiliarySpaceSize + REFERENCE_BUFFER_SIZE = 0 ∨ os.mallocAddr ≠ 0) :
    ∃ c ec cf w, maxine os = .completed c ec cf w ∧
      (cf = true ↔ 0 < info.fd) ∧
      (info.fd ≤ 0 → cf = false ∧ w = false) := by
  obtain ⟨c, hc, hm⟩ := maxine_completes os info hdyld hpath himg hok
  refine ⟨c, _, _, _, hc, by simp, ?_⟩
  intro hfd
  constructor
  · simpa using not_lt.mpr hfd
  · simp [not_lt.mpr hfd]

/-- C10 witness: a concrete run with file descriptor 0 and a `close`
that would fail neither closes the descriptor nor warns. -/
theorem c10_close_only_positive_fd_witness :
    ∃ c ec cf w, maxine zeroFdOS = .completed c ec cf w ∧
      (cf = true ↔ 0 < zeroFdInfo.fd) ∧
      (zeroFdInfo.fd ≤ 0 → cf = false ∧ w = false) :=
  c10_close_only_positive_fd zeroFdOS zeroFdInfo rfl rfl rfl (Or.inr (by decide))

/-- C7: for the resolved executable path `/opt/app/bin/x`, the backward
scan truncates at the last separator inclusive, yielding the directory
`/opt/app/bin/`, and appending `IMAGE_FILE_NAME` yields the image path
`/opt/app/bin/maxine.vm`. -/
theorem c7_image_path :
    readCString (chopFrom (bufOfList (strBytes "/opt/app/bin/x")) 14) 64 0 =
      strBytes "/opt/app/bin/" ∧
    getImageFilePathBytes (bufOfList (strBytes "/opt/app/bin/x")) 14 64 =
      strBytes "/opt/app/bin/maxine.vm" := by
  constructor
  · decide
  · decide

/-- C8: the backward separator scan always terminates — it performs at
most `n + 1` reads — every index it reads is at most `n` (the resolved
path length) and every index it writes is at most `n + 1`; when the path
string is NUL-terminated inside a buffer of `B > n` bytes, every access
falls strictly inside the buffer; and when the path contains no
separator at all the scan still terminates, writing nothing and leaving
the buffer unchanged. -/
theorem c8_scan_bounded (buf : Nat → Nat) (n : Nat) :
    (∀ j ∈ chopReads buf n, j ≤ n) ∧
    (∀ j ∈ chopWrites buf n, j ≤ n + 1) ∧
    (chopReads buf n).length ≤ n + 1 ∧
    (buf n = 0 → ∀ j ∈ chopWrites buf n, j ≤ n) ∧
    (∀ B, n < B → buf n = 0 →
      (∀ j ∈ chopReads buf n, j < B) ∧ (∀ j ∈ chopWrites buf n, j < B)) ∧
    ((∀ i ≤ n, buf i ≠ slashByte) → chopWrites buf n = [] ∧ chopFrom buf n = buf) := by
  induction n with
  | zero =>
    refine ⟨?_, ?_, ?_, ?_, ?_, ?_⟩
    · intro j hj
      simp [chopReads] at hj
      omega
    · intro j hj
      simp only [chopWrites] at hj
      split at hj <;> simp_all
    · simp [chopReads]
    · intro h0 j hj
      simp only [chopWrites] at hj
      rw [h0] at hj
      simp [slashByte] at hj
    · intro B hB h0
      constructor
      · intro j hj
        simp [chopReads] at hj
        omega
      · intro j hj
        simp only [chopWrites] at hj
        rw [h0] at hj
        simp [slashByte] at hj
    · intro hns
      have h0 : buf 0 ≠ slashByte := hns 0 (le_refl 0)
      constructor
      · simp [chopWrites, h0]
      · simp [chopFrom, h0]
  | succ n ih =>
    by_cases hsep : buf (n + 1) = slashByte
    · refine ⟨?_, ?_, ?_, ?_, ?_, ?_⟩
      · intro j hj
        simp [chopReads, hsep] at hj
        omega
      · intro j hj
        simp [chopWrites, hsep] at hj
        omega
      · simp [chopReads, hsep]
      · intro h0
        rw [h0] at hsep
        simp [slashByte] at hsep
      · intro B hB h0
        rw [h0] at hsep
        simp [slashByte] at hsep
      · intro hns
        exact absurd hsep (hns (n + 1) (le_refl (n + 1)))
    · refine ⟨?_, ?_, ?_, ?_, ?_, ?_⟩
      · intro j hj
        simp only [chopReads, if_neg hsep, List.mem_cons] at hj
        rcases hj with h | h
        · omega
        · have := ih.1 j h
          omega
      · intro j hj
        simp only [chopWrites, if_neg hsep] at hj
        have := ih.2.1 j hj
        omega
      · simp only [chopReads, if_neg hsep, List.length_cons]
        have := ih.2.2.1
        omega
      · intro h0 j hj
        simp only [chopWrites, if_neg hsep] at hj
        have := ih.2.1 j hj
        omega
      · intro B hB h0
        constructor
        · intro j hj
          simp only [chopReads, if_neg hsep, List.mem_cons] at hj
          rcases hj with h | h
          · omega
          · have := ih.1 j h
            omega
        · intro j hj
          simp only [chopWrites, if_neg hsep] at hj
          have := ih.2.1 j hj
          omega
      · intro hns
        have hrec := ih.2.2.2.2.2 (fun i hi => hns i (Nat.le_succ_of_le hi))
        constructor
        · simp only [chopWrites, if_neg hsep]
          exact hrec.1
        · simp only [chopFrom, if_neg hsep]
          exact hrec.2

/-- C8 witness: on the concrete separator-free path `xyz` (length 3,
NUL-terminated in a 64-byte buffer) the scan reads only indices ≤ 3,
stays inside the buffer, writes nothing and leaves the buffer
unchanged. -/
theorem c8_scan_bounded_witness :
    (∀ j ∈ chopReads (bufOfList (strBytes "xyz")) 3, j ≤ 3) ∧
    (∀ j ∈ chopWrites (bufOfList (strBytes "xyz")) 3, j < 64) ∧
    (∀ j ∈ chopReads (bufOfList (strBytes "xyz")) 3, j < 64) ∧
    chopWrites (bufOfList (strBytes "xyz")) 3 = [] ∧
    chopFrom (bufOfList (strBytes "xyz")) 3 = bufOfList (strBytes "xyz") :=
  ⟨(c8_scan_bounded (bufOfList (strBytes "xyz")) 3).1,
   ((c8_scan_bounded (bufOfList (strBytes "xyz")) 3).2.2.2.2.1 64 (by decide) (by decide)).2,
   ((c8_scan_bounded (bufOfList (strBytes "xyz")) 3).2.2.2.2.1 64 (by decide) (by decide)).1,
   ((c8_scan_bounded (bufOfList (strBytes "xyz")) 3).2.2.2.2.2 (by decide)).1,
   ((c8_scan_bounded (bufOfList (strBytes "xyz")) 3).2.2.2.2.2 (by decide)).2⟩

/-- C9: the fault-diagnostics termination routine always terminates the
process with exactly the supplied status code, whatever the `dladdr`
resolution produced; when no module owns the faulting address it logs
only the raw-address trap message. -/
theorem c9_trap_exit (dladdrResult : Option DlInfo) (code : Int) (address : Nat) :
    (native_trap_exit dladdrResult code address).exitCode = code ∧
    (dladdrResult = none →
      (native_trap_exit dladdrResult code address).lines = [.trapMessage address]) := by
  constructor
  · rfl
  · intro h
    subst h
    rfl

/-- C9 witness: at a concrete unresolvable address, the routine exits
with the supplied code 42 and logs only the raw address. -/
theorem c9_trap_exit_witness :
    (native_trap_exit none 42 1000).exitCode = 42 ∧
    (native_trap_exit none 42 1000).lines = [.trapMessage 1000] :=
  ⟨(c9_trap_exit none 42 1000).1, (c9_trap_exit none 42 1000).2 rfl⟩
